import Mathlib

/-!
Verification of the PostgreSQL client manager
(`src/server/services/postgres_client_manager.py`): connection scope,
query builder, insert/update/delete rendering, and RPC invocation.

The embedding is shallow: the query builder state is a structure mirroring
`PostgreSQLTable.__init__`; each fluent method is a function on that
structure; terminal calls return the trace of events issued to the driver
(cursor opening and SQL execution with its bound parameter list) together
with the result or error. The driver itself (psycopg2) is abstracted as a
function argument; named-parameter binding, which psycopg2 performs, is
modelled separately from its documented semantics.
-/

namespace Archon

/-- SQL-bindable runtime values (Python objects passed as parameters). -/
inductive Value where
  | vNull
  | vInt (n : Int)
  | vStr (s : String)
  | vBool (b : Bool)
  deriving DecidableEq, Repr

/-- A result row as returned by `RealDictCursor`: an ordered mapping from
column name to value. -/
abbrev Row := List (String × Value)

/-- The single error class `DatabaseError` raised by the client manager. -/
inductive DbError where
  | databaseError (msg : String)
  deriving DecidableEq, Repr

/-- The uniform result shape `{"data": results, "count": len(results)}`
returned by every terminal call. -/
structure QueryResult where
  data : List Row
  count : Nat
  deriving DecidableEq, Repr

/-- Observable events issued towards the database driver: opening a cursor
(which borrows a pooled connection), executing SQL with a positional
parameter tuple, or executing SQL with a named parameter mapping. -/
inductive DbEvent where
  | openCursor
  | execSql (sql : String) (params : List Value)
  | execSqlNamed (sql : String) (params : List (String × Value))
  deriving DecidableEq, Repr

/-- Mutable accumulator state of `PostgreSQLTable`, exactly the fields set
in `PostgreSQLTable.__init__`. -/
structure PostgreSQLTable where
  table_name : String
  select_columns : String
  where_conditions : List String
  where_params : List Value
  order_by_clause : String
  limit_count : Option Int
  offset_count : Option Int
  deriving DecidableEq, Repr

/-- `PostgreSQLClient.table`: a fresh query builder for a table. -/
def table (table_name : String) : PostgreSQLTable :=
  { table_name := table_name
    select_columns := "*"
    where_conditions := []
    where_params := []
    order_by_clause := ""
    limit_count := none
    offset_count := none }

namespace PostgreSQLTable

/-- `select(columns)`. -/
def select (t : PostgreSQLTable) (columns : String) : PostgreSQLTable :=
  { t with select_columns := columns }

/-- `eq(column, value)`: appends `column = %s` and the value. -/
def eq (t : PostgreSQLTable) (column : String) (value : Value) : PostgreSQLTable :=
  { t with where_conditions := t.where_conditions ++ [column ++ " = %s"]
           where_params := t.where_params ++ [value] }

/-- `neq(column, value)`: appends `column != %s` and the value. -/
def neq (t : PostgreSQLTable) (column : String) (value : Value) : PostgreSQLTable :=
  { t with where_conditions := t.where_conditions ++ [column ++ " != %s"]
           where_params := t.where_params ++ [value] }

/-- `gt(column, value)`: appends `column > %s` and the value. -/
def gt (t : PostgreSQLTable) (column : String) (value : Value) : PostgreSQLTable :=
  { t with where_conditions := t.where_conditions ++ [column ++ " > %s"]
           where_params := t.where_params ++ [value] }

/-- `gte(column, value)`: appends `column >= %s` and the value. -/
def gte (t : PostgreSQLTable) (column : String) (value : Value) : PostgreSQLTable :=
  { t with where_conditions := t.where_conditions ++ [column ++ " >= %s"]
           where_params := t.where_params ++ [value] }

/-- `lt(column, value)`: appends `column < %s` and the value. -/
def lt (t : PostgreSQLTable) (column : String) (value : Value) : PostgreSQLTable :=
  { t with where_conditions := t.where_conditions ++ [column ++ " < %s"]
           where_params := t.where_params ++ [value] }

/-- `lte(column, value)`: appends `column <= %s` and the value. -/
def lte (t : PostgreSQLTable) (column : String) (value : Value) : PostgreSQLTable :=
  { t with where_conditions := t.where_conditions ++ [column ++ " <= %s"]
           where_params := t.where_params ++ [value] }

/-- `like(column, pattern)`: appends `column LIKE %s` and the pattern. -/
def like (t : PostgreSQLTable) (column : String) (pattern : Value) : PostgreSQLTable :=
  { t with where_conditions := t.where_conditions ++ [column ++ " LIKE %s"]
           where_params := t.where_params ++ [pattern] }

/-- `ilike(column, pattern)`: appends `column ILIKE %s` and the pattern. -/
def ilike (t : PostgreSQLTable) (column : String) (pattern : Value) : PostgreSQLTable :=
  { t with where_conditions := t.where_conditions ++ [column ++ " ILIKE %s"]
           where_params := t.where_params ++ [pattern] }

/-- `in_(column, values)`: with an empty list appends the literal clause
`FALSE` and no parameters; otherwise appends `column IN (%s, ..., %s)` and
all the values. -/
def in_ (t : PostgreSQLTable) (column : String) (values : List Value) : PostgreSQLTable :=
  if values.isEmpty then
    { t with where_conditions := t.where_conditions ++ ["FALSE"] }
  else
    let placeholders := String.intercalate ", " (values.map (fun _ => "%s"))
    { t with where_conditions := t.where_conditions ++ [column ++ " IN (" ++ placeholders ++ ")"]
             where_params := t.where_params ++ values }

/-- `is_(column, value)`: `IS NULL` (no parameter) when the value is null,
otherwise `column IS %s` with the value. -/
def is_ (t : PostgreSQLTable) (column : String) (value : Value) : PostgreSQLTable :=
  match value with
  | Value.vNull => { t with where_conditions := t.where_conditions ++ [column ++ " IS NULL"] }
  | v => { t with where_conditions := t.where_conditions ++ [column ++ " IS %s"]
                  where_params := t.where_params ++ [v] }

/-- `order(column, desc)`: overwrites the single ORDER BY clause. -/
def order (t : PostgreSQLTable) (column : String) (desc : Bool) : PostgreSQLTable :=
  let direction := if desc then "DESC" else "ASC"
  { t with order_by_clause := "ORDER BY " ++ column ++ " " ++ direction }

/-- `limit(count)`. -/
def limit (t : PostgreSQLTable) (count : Int) : PostgreSQLTable :=
  { t with limit_count := some count }

/-- `offset(count)`. -/
def offset (t : PostgreSQLTable) (count : Int) : PostgreSQLTable :=
  { t with offset_count := some count }

/-- The SELECT statement text built inside `execute`: base query, then
WHERE, ORDER BY, and interpolated LIMIT/OFFSET in that order. -/
def renderSelectSql (t : PostgreSQLTable) : String :=
  let sql1 := "SELECT " ++ t.select_columns ++ " FROM " ++ t.table_name
  let sql2 := if t.where_conditions.isEmpty then sql1
              else sql1 ++ " WHERE " ++ String.intercalate " AND " t.where_conditions
  let sql3 := if t.order_by_clause = "" then sql2 else sql2 ++ " " ++ t.order_by_clause
  let sql4 := match t.limit_count with
              | none => sql3
              | some n => sql3 ++ " LIMIT " ++ toString n
  match t.offset_count with
  | none => sql4
  | some n => sql4 ++ " OFFSET " ++ toString n

/-- `execute()`: renders the SELECT, opens a cursor, runs the statement
with the accumulated `where_params` tuple, and wraps the fetched rows. The
driver abstracts `cursor.execute` plus `fetchall`. -/
def execute (t : PostgreSQLTable) (driver : String → List Value → List Row) :
    List DbEvent × Except DbError QueryResult :=
  let sql := renderSelectSql t
  let results := driver sql t.where_params
  ([DbEvent.openCursor, DbEvent.execSql sql t.where_params],
   Except.ok { data := results, count := results.length })

end PostgreSQLTable

/-- Python `record[col]` on a dict row: lookup by key, `none` models a
KeyError. -/
def lookupKey (r : Row) (k : String) : Option Value :=
  (r.find? (fun p => p.1 == k)).map Prod.snd

/-- `tuple(record[col] for col in columns)`: values of a record at the
first-record column list, left to right; the first missing key raises
(modelled as the error the surrounding handler wraps). -/
def recordValues (cols : List String) (r : Row) : Except DbError (List Value) :=
  match cols with
  | [] => Except.ok []
  | c :: rest =>
    match lookupKey r c with
    | none => Except.error (DbError.databaseError ("Database insert failed: KeyError " ++ c))
    | some v =>
      match recordValues rest r with
      | Except.error e => Except.error e
      | Except.ok vs => Except.ok (v :: vs)

namespace PostgreSQLTable

/-- The per-record loop of `insert`: each record is rendered to its value
tuple and executed as its own statement; `fetchone` after
`RETURNING *` is the driver returning one row. A missing key aborts the
loop after the statements already issued. -/
def insertLoop (sql : String) (cols : List String)
    (driverOne : String → List Value → Row) :
    List Row → List DbEvent × Except DbError (List Row)
  | [] => ([], Except.ok [])
  | r :: rest =>
    match recordValues cols r with
    | Except.error e => ([], Except.error e)
    | Except.ok values =>
      let row := driverOne sql values
      let next := insertLoop sql cols driverOne rest
      (DbEvent.execSql sql values :: next.1,
       match next.2 with
       | Except.error e => Except.error e
       | Except.ok rows => Except.ok (row :: rows))

/-- The INSERT statement text: column list from `cols`, one `%s`
placeholder per column, `RETURNING *`. -/
def insertSql (table_name : String) (cols : List String) : String :=
  "INSERT INTO " ++ table_name ++ " (" ++ String.intercalate ", " cols ++
    ") VALUES (" ++ String.intercalate ", " (cols.map (fun _ => "%s")) ++ ") RETURNING *"

/-- `insert(data)` for a sequence of records: empty input returns the empty
result at once, issuing nothing; otherwise the column list comes from the
first record and every record is inserted through its own statement. -/
def insert (t : PostgreSQLTable) (data : List Row)
    (driverOne : String → List Value → Row) :
    List DbEvent × Except DbError QueryResult :=
  match data with
  | [] => ([], Except.ok { data := [], count := 0 })
  | r0 :: _ =>
    let columns := r0.map Prod.fst
    let sql := insertSql t.table_name columns
    let run := insertLoop sql columns driverOne data
    (DbEvent.openCursor :: run.1,
     match run.2 with
     | Except.error e => Except.error e
     | Except.ok results => Except.ok { data := results, count := results.length })

/-- `update(data)`: refused outright when no predicate was added;
otherwise renders `UPDATE ... SET ... WHERE ... RETURNING *` and binds the
patch values followed by the accumulated predicate values. -/
def update (t : PostgreSQLTable) (data : List (String × Value))
    (driver : String → List Value → List Row) :
    List DbEvent × Except DbError QueryResult :=
  if t.where_conditions.isEmpty then
    ([], Except.error (DbError.databaseError
      "Database update failed: UPDATE requires WHERE conditions for safety"))
  else
    let set_columns := String.intercalate ", " (data.map (fun p => p.1 ++ " = %s"))
    let set_values := data.map Prod.snd
    let where_clause := String.intercalate " AND " t.where_conditions
    let sql := "UPDATE " ++ t.table_name ++ " SET " ++ set_columns ++
      " WHERE " ++ where_clause ++ " RETURNING *"
    let all_params := set_values ++ t.where_params
    let results := driver sql all_params
    ([DbEvent.openCursor, DbEvent.execSql sql all_params],
     Except.ok { data := results, count := results.length })

/-- `delete()`: refused outright when no predicate was added; otherwise
renders `DELETE FROM ... WHERE ... RETURNING *` with the predicate
values. -/
def delete (t : PostgreSQLTable) (driver : String → List Value → List Row) :
    List DbEvent × Except DbError QueryResult :=
  if t.where_conditions.isEmpty then
    ([], Except.error (DbError.databaseError
      "Database delete failed: DELETE requires WHERE conditions for safety"))
  else
    let where_clause := String.intercalate " AND " t.where_conditions
    let sql := "DELETE FROM " ++ t.table_name ++ " WHERE " ++ where_clause ++ " RETURNING *"
    let results := driver sql t.where_params
    ([DbEvent.openCursor, DbEvent.execSql sql t.where_params],
     Except.ok { data := results, count := results.length })

end PostgreSQLTable

/-- State of a `PostgreSQLRPC` invocation: procedure name and the keyword
parameter mapping (insertion-ordered, keys distinct, like a Python dict). -/
structure PostgreSQLRPC where
  function_name : String
  params : List (String × Value)
  deriving DecidableEq, Repr

/-- `PostgreSQLClient.rpc`. -/
def rpc (function_name : String) (params : List (String × Value)) : PostgreSQLRPC :=
  { function_name := function_name, params := params }

namespace PostgreSQLRPC

/-- The keys for which `execute` emits a `%(key)s` placeholder, in the
order they appear in the statement text. -/
def placeholderKeys (r : PostgreSQLRPC) : List String :=
  r.params.map Prod.fst

/-- `PostgreSQLRPC.execute`: renders
`SELECT * FROM fn(%(k1)s, ..., %(kn)s)` and hands the statement together
with the name-to-value mapping itself to the driver. -/
def execute (r : PostgreSQLRPC) (driver : String → List (String × Value) → List Row) :
    List DbEvent × Except DbError QueryResult :=
  let param_placeholders :=
    String.intercalate ", " (r.params.map (fun p => "%(" ++ p.1 ++ ")s"))
  let sql := "SELECT * FROM " ++ r.function_name ++ "(" ++ param_placeholders ++ ")"
  let results := driver sql r.params
  ([DbEvent.openCursor, DbEvent.execSqlNamed sql r.params],
   Except.ok { data := results, count := results.length })

end PostgreSQLRPC

/-- Modelled from the spec: the driver-side bind step for named
placeholders (psycopg2 pyformat, external to this repository). Each
placeholder name is resolved against the parameter mapping by explicit
name lookup, left to right; an unknown name fails the bind. -/
def pyformatBind (names : List String) (params : List (String × Value)) :
    Option (List Value) :=
  match names with
  | [] => some []
  | k :: rest =>
    match lookupKey params k with
    | none => none
    | some v => (pyformatBind rest params).map (fun vs => v :: vs)

/-- Events on the borrowed connection inside
`PostgreSQLClient.get_connection`. -/
inductive ConnEvent where
  | getconn
  | commit
  | rollback
  | putconn
  deriving DecidableEq, Repr

/-- `PostgreSQLClient.get_connection`: borrow a connection, run the scoped
operation, commit on normal completion or roll back and re-raise on
failure, and always return the connection to the pool in the `finally`
block. The operation is abstracted by its outcome. -/
def get_connection {α : Type} (op : Except DbError α) :
    List ConnEvent × Except DbError α :=
  match op with
  | Except.ok a =>
    ([ConnEvent.getconn, ConnEvent.commit, ConnEvent.putconn], Except.ok a)
  | Except.error e =>
    ([ConnEvent.getconn, ConnEvent.rollback, ConnEvent.putconn], Except.error e)

/-- Modelled from the spec: the database evaluating the rendered WHERE
clause — psycopg2 and PostgreSQL are external to this repository. A row
survives when every conjunct (the clauses are joined with AND) evaluates
to true under the engine's atom semantics. -/
def scanRows (rows : List Row) (conds : List String)
    (evalAtom : Row → String → Bool) : List Row :=
  rows.filter (fun r => conds.all (evalAtom r))

/-- One call of a predicate method in a fluent chain. -/
inductive PredCall where
  | eqC (column : String) (value : Value)
  | neqC (column : String) (value : Value)
  | gtC (column : String) (value : Value)
  | gteC (column : String) (value : Value)
  | ltC (column : String) (value : Value)
  | lteC (column : String) (value : Value)
  | likeC (column : String) (pattern : Value)
  | ilikeC (column : String) (pattern : Value)
  | inC (column : String) (values : List Value)
  | isC (column : String) (value : Value)
  deriving DecidableEq, Repr

/-- Dispatch one chained call to the corresponding builder method. -/
def applyCall (t : PostgreSQLTable) : PredCall → PostgreSQLTable
  | PredCall.eqC c v => t.eq c v
  | PredCall.neqC c v => t.neq c v
  | PredCall.gtC c v => t.gt c v
  | PredCall.gteC c v => t.gte c v
  | PredCall.ltC c v => t.lt c v
  | PredCall.lteC c v => t.lte c v
  | PredCall.likeC c v => t.like c v
  | PredCall.ilikeC c v => t.ilike c v
  | PredCall.inC c vs => t.in_ c vs
  | PredCall.isC c v => t.is_ c v

/-- Apply a whole fluent chain, left to right. -/
def applyChain (t : PostgreSQLTable) : List PredCall → PostgreSQLTable
  | [] => t
  | c :: rest => applyChain (applyCall t c) rest

/-- The WHERE clause one call appends. -/
def callClause : PredCall → String
  | PredCall.eqC c _ => c ++ " = %s"
  | PredCall.neqC c _ => c ++ " != %s"
  | PredCall.gtC c _ => c ++ " > %s"
  | PredCall.gteC c _ => c ++ " >= %s"
  | PredCall.ltC c _ => c ++ " < %s"
  | PredCall.lteC c _ => c ++ " <= %s"
  | PredCall.likeC c _ => c ++ " LIKE %s"
  | PredCall.ilikeC c _ => c ++ " ILIKE %s"
  | PredCall.inC c vs =>
    if vs.isEmpty then "FALSE"
    else c ++ " IN (" ++ String.intercalate ", " (vs.map (fun _ => "%s")) ++ ")"
  | PredCall.isC c v =>
    match v with
    | Value.vNull => c ++ " IS NULL"
    | _ => c ++ " IS %s"

/-- The parameter values one call appends. -/
def callValues : PredCall → List Value
  | PredCall.eqC _ v => [v]
  | PredCall.neqC _ v => [v]
  | PredCall.gtC _ v => [v]
  | PredCall.gteC _ v => [v]
  | PredCall.ltC _ v => [v]
  | PredCall.lteC _ v => [v]
  | PredCall.likeC _ v => [v]
  | PredCall.ilikeC _ v => [v]
  | PredCall.inC _ vs => vs
  | PredCall.isC _ v =>
    match v with
    | Value.vNull => []
    | v => [v]

/-- Each predicate method appends exactly its clause and exactly its
values, at the end of the accumulated lists. -/
lemma applyCall_spec (t : PostgreSQLTable) (c : PredCall) :
    (applyCall t c).where_conditions = t.where_conditions ++ [callClause c] ∧
    (applyCall t c).where_params = t.where_params ++ callValues c := by
  cases c with
  | inC col vs =>
    cases vs with
    | nil => simp [applyCall, PostgreSQLTable.in_, callClause, callValues]
    | cons v rest => simp [applyCall, PostgreSQLTable.in_, callClause, callValues]
  | isC col v =>
    cases v <;>
      simp [applyCall, PostgreSQLTable.is_, callClause, callValues]
  | eqC col v => simp [applyCall, PostgreSQLTable.eq, callClause, callValues]
  | neqC col v => simp [applyCall, PostgreSQLTable.neq, callClause, callValues]
  | gtC col v => simp [applyCall, PostgreSQLTable.gt, callClause, callValues]
  | gteC col v => simp [applyCall, PostgreSQLTable.gte, callClause, callValues]
  | ltC col v => simp [applyCall, PostgreSQLTable.lt, callClause, callValues]
  | lteC col v => simp [applyCall, PostgreSQLTable.lte, callClause, callValues]
  | likeC col v => simp [applyCall, PostgreSQLTable.like, callClause, callValues]
  | ilikeC col v => simp [applyCall, PostgreSQLTable.ilike, callClause, callValues]

/-- A chain appends the clauses in call order and the values in call
order, concatenated. -/
lemma applyChain_spec (chain : List PredCall) (t : PostgreSQLTable) :
    (applyChain t chain).where_conditions =
      t.where_conditions ++ chain.map callClause ∧
    (applyChain t chain).where_params =
      t.where_params ++ (chain.map callValues).flatten := by
  induction chain generalizing t with
  | nil => simp [applyChain]
  | cons c rest ih =>
    have hc := applyCall_spec t c
    have hr := ih (applyCall t c)
    simp only [applyChain, List.map_cons, List.flatten_cons]
    refine ⟨?_, ?_⟩
    · rw [hr.1, hc.1, List.append_assoc]
      simp
    · rw [hr.2, hc.2, List.append_assoc]

/-- A concrete atom semantics mapping every clause to false, used to
instantiate semantic statements on concrete inputs. -/
def nullAtomSem : Row → String → Bool := fun _ _ => false

/-- Claim C1: for every chain of predicate calls on a fresh builder, the
accumulated WHERE clauses are exactly the calls' rendered clauses in
addition order, and the parameter tuple handed to the driver by
`execute()` is exactly the concatenation of the values each call added,
in the same order, positionally aligned with those clauses. -/
theorem predicate_params_aligned (nm : String) (chain : List PredCall)
    (driver : String → List Value → List Row) :
    (applyChain (table nm) chain).where_conditions = chain.map callClause ∧
    (applyChain (table nm) chain).where_params = (chain.map callValues).flatten ∧
    ((applyChain (table nm) chain).execute driver).1 =
      [DbEvent.openCursor,
       DbEvent.execSql ((applyChain (table nm) chain).renderSelectSql)
         ((chain.map callValues).flatten)] := by
  have h := applyChain_spec chain (table nm)
  have h1 : (applyChain (table nm) chain).where_conditions = chain.map callClause := by
    simpa [table] using h.1
  have h2 : (applyChain (table nm) chain).where_params = (chain.map callValues).flatten := by
    simpa [table] using h.2
  exact ⟨h1, h2, by simp [PostgreSQLTable.execute, h2]⟩

/-- Claim C2: `update` and `delete` on a builder with zero accumulated
predicates produce an empty event trace (no cursor, no SQL) and the
safety refusal error. -/
theorem mutation_requires_predicates (t : PostgreSQLTable)
    (data : List (String × Value))
    (driver1 driver2 : String → List Value → List Row)
    (h : t.where_conditions = []) :
    t.update data driver1 =
      ([], Except.error (DbError.databaseError
        "Database update failed: UPDATE requires WHERE conditions for safety")) ∧
    t.delete driver2 =
      ([], Except.error (DbError.databaseError
        "Database delete failed: DELETE requires WHERE conditions for safety")) := by
  constructor <;> simp [PostgreSQLTable.update, PostgreSQLTable.delete, h]

/-- Witness for claim C2 at a fresh builder. -/
theorem mutation_requires_predicates_witness :
    (table "t").update [("a", Value.vInt 1)] (fun _ _ => []) =
      ([], Except.error (DbError.databaseError
        "Database update failed: UPDATE requires WHERE conditions for safety")) ∧
    (table "t").delete (fun _ _ => []) =
      ([], Except.error (DbError.databaseError
        "Database delete failed: DELETE requires WHERE conditions for safety")) :=
  mutation_requires_predicates (table "t") [("a", Value.vInt 1)]
    (fun _ _ => []) (fun _ _ => []) rfl

/-- Claim C3: the connection scope propagates the operation outcome
unchanged, returns the connection to the pool as its last action in every
case, commits exactly on normal completion, and rolls back exactly on
failure. -/
theorem transaction_scope_semantics {α : Type} (op : Except DbError α) :
    (get_connection op).2 = op ∧
    (get_connection op).1.getLast? = some ConnEvent.putconn ∧
    (ConnEvent.commit ∈ (get_connection op).1 ↔ ∃ a, op = Except.ok a) ∧
    (ConnEvent.rollback ∈ (get_connection op).1 ↔ ∃ e, op = Except.error e) := by
  cases op with
  | ok a => refine ⟨rfl, rfl, ?_, ?_⟩ <;> simp [get_connection]
  | error e => refine ⟨rfl, rfl, ?_, ?_⟩ <;> simp [get_connection]

/-- Witness for claim C3 at a successful operation. -/
theorem transaction_scope_semantics_witness :
    (get_connection (Except.ok (0 : Nat))).2 = Except.ok 0 ∧
    (get_connection (Except.ok (0 : Nat))).1.getLast? = some ConnEvent.putconn ∧
    ConnEvent.commit ∈ (get_connection (Except.ok (0 : Nat))).1 :=
  ⟨(transaction_scope_semantics (Except.ok 0)).1,
   (transaction_scope_semantics (Except.ok 0)).2.1,
   ((transaction_scope_semantics (Except.ok (0 : Nat))).2.2.1).mpr ⟨0, rfl⟩⟩

/-- Claim C4: `in_` with an empty value list appends the literal clause
`FALSE` and no parameters, and under any atom semantics that evaluates the
clause `FALSE` to false, scanning any row set through the resulting
conjunction yields no rows. -/
theorem in_empty_renders_false (t : PostgreSQLTable) (col : String)
    (rows : List Row) (evalAtom : Row → String → Bool)
    (h : ∀ r, evalAtom r "FALSE" = false) :
    (t.in_ col []).where_conditions = t.where_conditions ++ ["FALSE"] ∧
    (t.in_ col []).where_params = t.where_params ∧
    scanRows rows (t.in_ col []).where_conditions evalAtom = [] := by
  refine ⟨by simp [PostgreSQLTable.in_], by simp [PostgreSQLTable.in_], ?_⟩
  have hc : (t.in_ col []).where_conditions = t.where_conditions ++ ["FALSE"] := by
    simp [PostgreSQLTable.in_]
  rw [scanRows, hc, List.filter_eq_nil_iff]
  intro r _
  simp [List.all_append, h r]

/-- Witness for claim C4 on a one-row scan. -/
theorem in_empty_renders_false_witness :
    scanRows [[("a", Value.vInt 1)]] (((table "t").in_ "x" []).where_conditions)
      nullAtomSem = [] :=
  (in_empty_renders_false (table "t") "x" [[("a", Value.vInt 1)]]
    nullAtomSem (fun _ => rfl)).2.2

/-- Claim C5: `update` with at least one predicate issues exactly one
statement whose bound parameters are the patch values in patch key order
followed by the predicate values in addition order, matching the rendered
SET-then-WHERE clause order. -/
theorem update_param_order (t : PostgreSQLTable) (data : List (String × Value))
    (driver : String → List Value → List Row) (h : t.where_conditions ≠ []) :
    (t.update data driver).1 =
      [DbEvent.openCursor,
       DbEvent.execSql
         ("UPDATE " ++ t.table_name ++ " SET " ++
           String.intercalate ", " (data.map (fun p => p.1 ++ " = %s")) ++
           " WHERE " ++ String.intercalate " AND " t.where_conditions ++
           " RETURNING *")
         (data.map Prod.snd ++ t.where_params)] := by
  simp [PostgreSQLTable.update, h]

/-- Witness for claim C5 with one predicate and a one-column patch. -/
theorem update_param_order_witness :
    ((((table "t").eq "k" (Value.vStr "v"))).update
        [("a", Value.vInt 1)] (fun _ _ => [])).1 =
      [DbEvent.openCursor,
       DbEvent.execSql
         ("UPDATE " ++ ((table "t").eq "k" (Value.vStr "v")).table_name ++
           " SET " ++
           String.intercalate ", "
             ([("a", Value.vInt 1)].map (fun p => p.1 ++ " = %s")) ++
           " WHERE " ++
           String.intercalate " AND "
             ((table "t").eq "k" (Value.vStr "v")).where_conditions ++
           " RETURNING *")
         ([("a", Value.vInt 1)].map Prod.snd ++
           ((table "t").eq "k" (Value.vStr "v")).where_params)] :=
  update_param_order ((table "t").eq "k" (Value.vStr "v"))
    [("a", Value.vInt 1)] (fun _ _ => [])
    (by simp [table, PostgreSQLTable.eq])

/-- Claim C8: `insert` on the empty sequence returns the empty result with
count zero and an empty event trace — no cursor is opened and no SQL is
issued. -/
theorem insert_empty_no_sql (t : PostgreSQLTable)
    (driverOne : String → List Value → Row) :
    t.insert [] driverOne = ([], Except.ok { data := [], count := 0 }) := rfl

/-- The same builder with no paging set. Every builder on which `limit`
and/or `offset` have been set arises by those calls on such a base, so
quantifying over `clearPaging t` covers the limit-only, offset-only and
both-set builders. -/
def clearPaging (t : PostgreSQLTable) : PostgreSQLTable :=
  { t with limit_count := none, offset_count := none }

/-- Claim C10: whether `limit(n)`, `offset(m)`, or both have been set,
the paging setters leave the accumulated parameter list untouched; the
values appear only interpolated into the SELECT text as `LIMIT n` /
`OFFSET m`; and `execute()` on each resulting builder binds exactly the
predicate parameters. -/
theorem limit_offset_interpolated (t : PostgreSQLTable) (n m : Int)
    (driver : String → List Value → List Row) :
    ((clearPaging t).limit n).where_params = t.where_params ∧
    ((clearPaging t).offset m).where_params = t.where_params ∧
    (((clearPaging t).limit n).offset m).where_params = t.where_params ∧
    PostgreSQLTable.renderSelectSql ((clearPaging t).limit n) =
      PostgreSQLTable.renderSelectSql (clearPaging t) ++
        " LIMIT " ++ toString n ∧
    PostgreSQLTable.renderSelectSql ((clearPaging t).offset m) =
      PostgreSQLTable.renderSelectSql (clearPaging t) ++
        " OFFSET " ++ toString m ∧
    PostgreSQLTable.renderSelectSql (((clearPaging t).limit n).offset m) =
      PostgreSQLTable.renderSelectSql (clearPaging t) ++
        " LIMIT " ++ toString n ++ " OFFSET " ++ toString m ∧
    (((clearPaging t).limit n).execute driver).1 =
      [DbEvent.openCursor,
       DbEvent.execSql
         (PostgreSQLTable.renderSelectSql ((clearPaging t).limit n))
         t.where_params] ∧
    (((clearPaging t).offset m).execute driver).1 =
      [DbEvent.openCursor,
       DbEvent.execSql
         (PostgreSQLTable.renderSelectSql ((clearPaging t).offset m))
         t.where_params] ∧
    ((((clearPaging t).limit n).offset m).execute driver).1 =
      [DbEvent.openCursor,
       DbEvent.execSql
         (PostgreSQLTable.renderSelectSql (((clearPaging t).limit n).offset m))
         t.where_params] :=
  ⟨rfl, rfl, rfl, rfl, rfl, rfl, rfl, rfl, rfl⟩

/-- A record renders to a value tuple exactly when it contains every
column of the column list. -/
lemma recordValues_isOk (cols : List String) (r : Row) :
    (∃ vs, recordValues cols r = Except.ok vs) ↔
      ∀ c ∈ cols, (lookupKey r c).isSome = true := by
  induction cols with
  | nil => simp [recordValues]
  | cons c rest ih =>
    constructor
    · rintro ⟨vs, hvs⟩
      intro c' hc'
      simp only [recordValues] at hvs
      cases hl : lookupKey r c with
      | none => rw [hl] at hvs; exact Except.noConfusion hvs
      | some v =>
        rw [hl] at hvs
        cases hrest : recordValues rest r with
        | error e => rw [hrest] at hvs; exact Except.noConfusion hvs
        | ok vs2 =>
          rcases List.mem_cons.mp hc' with h1 | h1
          · subst h1; simp [hl]
          · exact ih.mp ⟨vs2, hrest⟩ c' h1
    · intro hall
      have hc : (lookupKey r c).isSome = true :=
        hall c (List.mem_cons_self c rest)
      rcases Option.isSome_iff_exists.mp hc with ⟨v, hv⟩
      rcases ih.mpr (fun c' h => hall c' (List.mem_cons_of_mem c h)) with ⟨vs, hvs⟩
      exact ⟨v :: vs, by simp [recordValues, hv, hvs]⟩

/-- The insert loop succeeds exactly when every record contains every
column of the column list. -/
lemma insertLoop_isOk (sql : String) (cols : List String)
    (d : String → List Value → Row) (records : List Row) :
    (∃ rows, (PostgreSQLTable.insertLoop sql cols d records).2 = Except.ok rows) ↔
      ∀ r ∈ records, ∀ c ∈ cols, (lookupKey r c).isSome = true := by
  induction records with
  | nil => simp [PostgreSQLTable.insertLoop]
  | cons r rest ih =>
    constructor
    · rintro ⟨rows, hrows⟩
      intro r' hr' c hc
      simp only [PostgreSQLTable.insertLoop] at hrows
      cases hrv : recordValues cols r with
      | error e => rw [hrv] at hrows; exact Except.noConfusion hrows
      | ok values =>
        rw [hrv] at hrows
        simp only at hrows
        cases hnext : (PostgreSQLTable.insertLoop sql cols d rest).2 with
        | error e => rw [hnext] at hrows; exact Except.noConfusion hrows
        | ok rows2 =>
          rcases List.mem_cons.mp hr' with h1 | h1
          · subst h1
            exact (recordValues_isOk cols r').mp ⟨values, hrv⟩ c hc
          · exact ih.mp ⟨rows2, hnext⟩ r' h1 c hc
    · intro hall
      rcases (recordValues_isOk cols r).mpr
          (hall r (List.mem_cons_self r rest)) with ⟨values, hv⟩
      rcases ih.mpr (fun r' h c hc => hall r' (List.mem_cons_of_mem r h) c hc)
        with ⟨rows, hrows⟩
      exact ⟨d sql values :: rows,
        by simp [PostgreSQLTable.insertLoop, hv, hrows]⟩

/-- Every statement the insert loop issues uses the one SQL text it was
given. -/
lemma insertLoop_events_sql (sql : String) (cols : List String)
    (d : String → List Value → Row) (records : List Row) :
    ∀ s ps, DbEvent.execSql s ps ∈ (PostgreSQLTable.insertLoop sql cols d records).1 →
      s = sql := by
  induction records with
  | nil => simp [PostgreSQLTable.insertLoop]
  | cons r rest ih =>
    intro s ps hmem
    simp only [PostgreSQLTable.insertLoop] at hmem
    cases hrv : recordValues cols r with
    | error e => rw [hrv] at hmem; simp at hmem
    | ok values =>
      rw [hrv] at hmem
      simp only [List.mem_cons] at hmem
      rcases hmem with h1 | h1
      · cases h1; rfl
      · exact ih s ps h1

/-- Claim C7 counterexample: the second record carries the extra key `b`
not present in the first record, so its key set differs from the first
record's, yet `insert` succeeds — the extra key is silently dropped and
only column `a` is bound — instead of surfacing a rendering failure. -/
theorem insert_extra_keys_not_rejected :
    ((table "t").insert
        [[("a", Value.vInt 1)], [("a", Value.vInt 2), ("b", Value.vInt 3)]]
        (fun _ vs => [("a", vs.headD Value.vNull)])).2 =
      Except.ok { data := [[("a", Value.vInt 1)], [("a", Value.vInt 2)]]
                  count := 2 } := rfl

/-- Claim C7 (amended): the column list and every statement text come from
the first record's keys; a subsequent record missing one of those keys is
surfaced as a failure, while a record containing all of them succeeds even
when it carries extra keys — those are silently ignored. Success holds
exactly when every record contains every key of the first record. -/
theorem insert_key_discipline (t : PostgreSQLTable) (r0 : Row)
    (rest : List Row) (driverOne : String → List Value → Row) :
    (∀ s ps, DbEvent.execSql s ps ∈ (t.insert (r0 :: rest) driverOne).1 →
      s = PostgreSQLTable.insertSql t.table_name (r0.map Prod.fst)) ∧
    ((∃ r, (t.insert (r0 :: rest) driverOne).2 = Except.ok r) ↔
      ∀ r ∈ r0 :: rest, ∀ c ∈ r0.map Prod.fst,
        (lookupKey r c).isSome = true) := by
  constructor
  · intro s ps hmem
    simp only [PostgreSQLTable.insert, List.mem_cons] at hmem
    rcases hmem with h1 | h1
    · exact absurd h1 (by simp)
    · exact insertLoop_events_sql _ _ _ _ s ps h1
  · rw [← insertLoop_isOk (PostgreSQLTable.insertSql t.table_name (r0.map Prod.fst))
        (r0.map Prod.fst) driverOne (r0 :: rest)]
    constructor
    · rintro ⟨r, hr⟩
      simp only [PostgreSQLTable.insert] at hr
      cases hrun : (PostgreSQLTable.insertLoop
          (PostgreSQLTable.insertSql t.table_name (r0.map Prod.fst))
          (r0.map Prod.fst) driverOne (r0 :: rest)).2 with
      | error e => rw [hrun] at hr; exact Except.noConfusion hr
      | ok rows => exact ⟨rows, rfl⟩
    · rintro ⟨rows, hrows⟩
      refine ⟨{ data := rows, count := rows.length }, ?_⟩
      simp only [PostgreSQLTable.insert]
      rw [hrows]

/-- Witness for the amended claim C7: a single consistent record inserts
successfully. -/
theorem insert_key_discipline_witness :
    ∃ r, ((table "t").insert [[("a", Value.vInt 1)]]
        (fun _ _ => [])).2 = Except.ok r :=
  (insert_key_discipline (table "t") [("a", Value.vInt 1)] []
    (fun _ _ => [])).2.mpr (by decide)

/-- Claim C6: every terminal call — select execute, insert, update,
delete, and RPC execute — that produces a result produces it with the
count field equal to the number of returned rows. -/
theorem result_count_matches_rows :
    (∀ (t : PostgreSQLTable) (driver : String → List Value → List Row)
        (r : QueryResult),
      (t.execute driver).2 = Except.ok r → r.count = r.data.length) ∧
    (∀ (t : PostgreSQLTable) (data : List Row)
        (d : String → List Value → Row) (r : QueryResult),
      (t.insert data d).2 = Except.ok r → r.count = r.data.length) ∧
    (∀ (t : PostgreSQLTable) (data : List (String × Value))
        (driver : String → List Value → List Row) (r : QueryResult),
      (t.update data driver).2 = Except.ok r → r.count = r.data.length) ∧
    (∀ (t : PostgreSQLTable) (driver : String → List Value → List Row)
        (r : QueryResult),
      (t.delete driver).2 = Except.ok r → r.count = r.data.length) ∧
    (∀ (rp : PostgreSQLRPC) (driver : String → List (String × Value) → List Row)
        (r : QueryResult),
      (rp.execute driver).2 = Except.ok r → r.count = r.data.length) := by
  refine ⟨?_, ?_, ?_, ?_, ?_⟩
  · intro t driver r h
    simp only [PostgreSQLTable.execute, Except.ok.injEq] at h
    rw [← h]
  · intro t data d r h
    cases data with
    | nil =>
      simp only [PostgreSQLTable.insert, Except.ok.injEq] at h
      rw [← h]
      rfl
    | cons r0 rest =>
      simp only [PostgreSQLTable.insert] at h
      cases hrun : (PostgreSQLTable.insertLoop
          (PostgreSQLTable.insertSql t.table_name (r0.map Prod.fst))
          (r0.map Prod.fst) d (r0 :: rest)).2 with
      | error e => rw [hrun] at h; exact Except.noConfusion h
      | ok rows =>
        rw [hrun] at h
        simp only [Except.ok.injEq] at h
        rw [← h]
  · intro t data driver r h
    by_cases hc : t.where_conditions.isEmpty
    · simp [PostgreSQLTable.update, hc] at h
    · simp only [PostgreSQLTable.update, hc, Bool.false_eq_true, if_false,
        Except.ok.injEq] at h
      rw [← h]
  · intro t driver r h
    by_cases hc : t.where_conditions.isEmpty
    · simp [PostgreSQLTable.delete, hc] at h
    · simp only [PostgreSQLTable.delete, hc, Bool.false_eq_true, if_false,
        Except.ok.injEq] at h
      rw [← h]
  · intro rp driver r h
    simp only [PostgreSQLRPC.execute, Except.ok.injEq] at h
    rw [← h]

/-- Witness for claim C6 at a one-row select. -/
theorem result_count_matches_rows_witness :
    ({ data := [[("a", Value.vInt 1)]], count := 1 } : QueryResult).count =
      ({ data := [[("a", Value.vInt 1)]], count := 1 } : QueryResult).data.length :=
  result_count_matches_rows.1 (table "t")
    (fun _ _ => [[("a", Value.vInt 1)]])
    { data := [[("a", Value.vInt 1)]], count := 1 } rfl

/-- Looking up a key at the front of a mapping yields its value. -/
lemma lookupKey_cons_self (k : String) (v : Value) (rest : Row) :
    lookupKey ((k, v) :: rest) k = some v := by
  simp [lookupKey, List.find?_cons]

/-- Looking up a different key skips the front entry. -/
lemma lookupKey_cons_ne (k k2 : String) (v : Value) (rest : Row)
    (h : k ≠ k2) :
    lookupKey ((k, v) :: rest) k2 = lookupKey rest k2 := by
  simp [lookupKey, List.find?_cons, h]

/-- In a mapping with distinct keys, lookup by name recovers exactly the
value associated with that name. -/
lemma lookupKey_mem_nodup (params : List (String × Value))
    (hnodup : (params.map Prod.fst).Nodup) :
    ∀ k v, (k, v) ∈ params → lookupKey params k = some v := by
  induction params with
  | nil => intro k v h; cases h
  | cons p rest ih =>
    intro k v h
    rcases p with ⟨k2, v2⟩
    simp only [List.map_cons, List.nodup_cons] at hnodup
    rcases List.mem_cons.mp h with h1 | h1
    · cases h1
      exact lookupKey_cons_self k v rest
    · have hk : k2 ≠ k := by
        intro he
        exact hnodup.1 (he ▸ List.mem_map_of_mem Prod.fst h1)
      rw [lookupKey_cons_ne k2 k v2 rest hk]
      exact ih hnodup.2 k v h1

/-- The bind step depends only on the name-to-value mapping at the bound
names, not on the representation or traversal order of the parameter
structure. -/
lemma pyformatBind_congr (names : List String)
    (p1 p2 : List (String × Value))
    (h : ∀ k ∈ names, lookupKey p1 k = lookupKey p2 k) :
    pyformatBind names p1 = pyformatBind names p2 := by
  induction names with
  | nil => rfl
  | cons k rest ih =>
    simp only [pyformatBind]
    rw [h k (List.mem_cons_self k rest),
      ih (fun k2 hk2 => h k2 (List.mem_cons_of_mem k hk2))]

/-- Binding the emitted placeholder names against the mapping they came
from recovers exactly the caller-supplied values, in placeholder order. -/
lemma pyformatBind_self (params : List (String × Value))
    (hnodup : (params.map Prod.fst).Nodup) :
    pyformatBind (params.map Prod.fst) params = some (params.map Prod.snd) := by
  induction params with
  | nil => rfl
  | cons p rest ih =>
    rcases p with ⟨k, v⟩
    simp only [List.map_cons, List.nodup_cons] at hnodup
    simp only [List.map_cons, pyformatBind, lookupKey_cons_self]
    have hcongr : pyformatBind (rest.map Prod.fst) ((k, v) :: rest) =
        pyformatBind (rest.map Prod.fst) rest := by
      refine pyformatBind_congr (rest.map Prod.fst) _ _ ?_
      intro k2 hk2
      have hk : k ≠ k2 := by
        intro he
        exact hnodup.1 (he ▸ hk2)
      exact lookupKey_cons_ne k k2 v rest hk
    rw [hcongr, ih hnodup.2]
    rfl

/-- Claim C9: the RPC invoker renders one placeholder per parameter name
and hands the name-to-value mapping itself to the driver; the bind step
resolves every placeholder by explicit name, so it recovers exactly the
caller-supplied value for each name and is unchanged under any other
representation of the same mapping — it never relies on traversal order. -/
theorem rpc_binds_by_name (f : String)
    (params params2 : List (String × Value))
    (driver : String → List (String × Value) → List Row)
    (hnodup : (params.map Prod.fst).Nodup)
    (hsame : ∀ k ∈ params.map Prod.fst,
      lookupKey params2 k = lookupKey params k) :
    ((rpc f params).execute driver).1 =
      [DbEvent.openCursor,
       DbEvent.execSqlNamed
         ("SELECT * FROM " ++ f ++ "(" ++
           String.intercalate ", "
             (params.map (fun p => "%(" ++ p.1 ++ ")s")) ++ ")")
         params] ∧
    pyformatBind ((rpc f params).placeholderKeys) params =
      some (params.map Prod.snd) ∧
    pyformatBind ((rpc f params).placeholderKeys) params2 =
      some (params.map Prod.snd) ∧
    (∀ k v, (k, v) ∈ params → lookupKey params k = some v) := by
  refine ⟨rfl, ?_, ?_, lookupKey_mem_nodup params hnodup⟩
  · exact pyformatBind_self params hnodup
  · rw [pyformatBind_congr ((rpc f params).placeholderKeys) params2 params hsame]
    exact pyformatBind_self params hnodup

/-- Witness for claim C9: a two-parameter call bound against the same
mapping written in the opposite insertion order still yields the original
values at each placeholder. -/
theorem rpc_binds_by_name_witness :
    pyformatBind
      ((rpc "fn" [("a", Value.vInt 1), ("b", Value.vInt 2)]).placeholderKeys)
      [("b", Value.vInt 2), ("a", Value.vInt 1)] =
      some [Value.vInt 1, Value.vInt 2] :=
  (rpc_binds_by_name "fn" [("a", Value.vInt 1), ("b", Value.vInt 2)]
    [("b", Value.vInt 2), ("a", Value.vInt 1)] (fun _ _ => [])
    (by decide) (by decide)).2.2.1

